import Mathlib

/-!
Verification of the core of `idle_total.py` (Power_Profiler): a shallow
embedding of the power-monitoring pipeline — the background poller with its
ring buffer (`AsyncPowerMonitor`), the rate estimator, and the foreground
CSV exporter loop of `main` — together with theorems settling the spec's
claims about them.

Times and power readings are modelled as rationals; wall-clock timestamps as
strings.  Fallible remote calls (`get_power_consumption`,
`get_power_supplies`) appear as `Except String _` values supplied per loop
iteration, since the remote endpoint is an external collaborator.
-/

/-- One entry of the list built by `RedfishClient.get_power_supplies`
(`{'id', 'input_watts', 'output_watts', 'state'}`); absent JSON fields are
`none`. -/
structure PowerSupplyReading where
  id : String
  input_watts : Option ℚ
  output_watts : Option ℚ
  state : Option String
deriving DecidableEq, Repr

/-- The sample dict built in `AsyncPowerMonitor._monitor_loop`
(`{'timestamp', 'time', 'power', 'power_supplies'}`). -/
structure Sample where
  timestamp : String
  time : ℚ
  power : ℚ
  power_supplies : List PowerSupplyReading
deriving DecidableEq, Repr

/-- State of `AsyncPowerMonitor`: the `deque(maxlen=max_samples)` contents
(oldest first), the `running` flag, the thread handle (abstracted to an
identifier), and `last_error`. -/
structure AsyncPowerMonitor where
  samples : List Sample
  maxSamples : Nat
  running : Bool
  thread : Option Nat
  lastError : Option String
deriving DecidableEq, Repr

/-- Embeds `AsyncPowerMonitor.__init__(client, system_id, max_samples)`: empty
deque, not running, no thread, no recorded error. -/
def AsyncPowerMonitor.init (maxSamples : Nat) : AsyncPowerMonitor :=
  { samples := [], maxSamples := maxSamples, running := false,
    thread := none, lastError := none }

/-- Embeds `self.poll_interval = 0.05` (50 ms between polls). -/
def pollInterval : ℚ := 1 / 20

/-- Appending to a `collections.deque` with `maxlen`: when the new length
would exceed `maxlen`, the oldest elements are discarded from the left. -/
def dequeAppend {α : Type} (maxlen : Nat) (buf : List α) (x : α) : List α :=
  let grown := buf ++ [x]
  if maxlen < grown.length then grown.drop (grown.length - maxlen) else grown

/-- Embeds `AsyncPowerMonitor.start`: returns `False` and changes nothing when
already running; otherwise sets `running`, records the freshly created
thread handle, and returns `True`. -/
def AsyncPowerMonitor.start (m : AsyncPowerMonitor) (newThread : Nat) :
    Bool × AsyncPowerMonitor :=
  if m.running then (false, m)
  else (true, { m with running := true, thread := some newThread })

/-- The external part of one `_monitor_loop` iteration that comes from the remote
endpoint: the result of `get_power_consumption`, the result
`get_power_supplies` would give if called, and the wall-clock/`time.time()`
timestamps taken when building the sample. -/
structure PollInput where
  powerRes : Except String ℚ
  suppliesRes : Except String (List PowerSupplyReading)
  timestamp : String
  time : ℚ

/-- Observable record of one `_monitor_loop` iteration: whether
`get_power_supplies` was called, the sample appended (if any), the duration
passed to `time.sleep`, and the value of `last_error` after the iteration. -/
structure IterLog where
  calledSupplies : Bool
  appended : Option Sample
  slept : ℚ
  lastErrorAfter : Option String
deriving DecidableEq, Repr

/-- One iteration of `AsyncPowerMonitor._monitor_loop`.  The whole body is
one `try` block: an exception raised by either fetch jumps to the `except`
branch, which records `last_error` and sleeps 1.0 s without appending.  On
success, `power_supplies` starts out `[]` and is fetched only when
`len(self.samples) % 20 == 0`; the sample is then appended to the deque and
the loop sleeps `poll_interval`. -/
def monitorStep (m : AsyncPowerMonitor) (inp : PollInput) :
    AsyncPowerMonitor × IterLog :=
  match inp.powerRes with
  | .error e =>
      ({ m with lastError := some e },
       { calledSupplies := false, appended := none, slept := 1,
         lastErrorAfter := some e })
  | .ok power =>
      if m.samples.length % 20 = 0 then
        match inp.suppliesRes with
        | .error e =>
            ({ m with lastError := some e },
             { calledSupplies := true, appended := none, slept := 1,
               lastErrorAfter := some e })
        | .ok ps =>
            let s : Sample :=
              { timestamp := inp.timestamp, time := inp.time, power := power,
                power_supplies := ps }
            ({ m with samples := dequeAppend m.maxSamples m.samples s },
             { calledSupplies := true, appended := some s,
               slept := pollInterval, lastErrorAfter := m.lastError })
      else
        let s : Sample :=
          { timestamp := inp.timestamp, time := inp.time, power := power,
            power_supplies := [] }
        ({ m with samples := dequeAppend m.maxSamples m.samples s },
         { calledSupplies := false, appended := some s,
           slept := pollInterval, lastErrorAfter := m.lastError })

/-- Running `_monitor_loop` for as many iterations as there are inputs (the
trace length stands for how long `self.running` stays true); returns the
final monitor state and the per-iteration logs in order. -/
def monitorRun (m : AsyncPowerMonitor) :
    List PollInput → AsyncPowerMonitor × List IterLog
  | [] => (m, [])
  | inp :: rest =>
      let step := monitorStep m inp
      let next := monitorRun step.1 rest
      (next.1, step.2 :: next.2)

/-- Embeds `AsyncPowerMonitor.get_samples(since_time=None)`: a filtered copy of the
deque (`s['time'] >= since_time`) or the whole copy; the monitor state is
returned unchanged (the method only reads under the lock). -/
def get_samples (m : AsyncPowerMonitor) (since_time : Option ℚ) :
    List Sample × AsyncPowerMonitor :=
  match since_time with
  | some t => (m.samples.filter (fun s => decide (t ≤ s.time)), m)
  | none => (m.samples, m)

/-- Embeds `AsyncPowerMonitor.get_latest_sample`: `self.samples[-1]` when the deque
is non-empty, `None` otherwise; state unchanged. -/
def get_latest_sample (m : AsyncPowerMonitor) :
    Option Sample × AsyncPowerMonitor :=
  (m.samples.getLast?, m)

/-- Embeds `AsyncPowerMonitor.get_sampling_rate`: 0 with fewer than 2 samples;
otherwise `count = min(10, len)`, `recent = list(samples)[-count:]`,
0 when the recent time span is ≤ 0, else `(count - 1) / span`.  The
wildcard branch of the `match` is unreachable (`recent` has length
`count ≥ 2` there). -/
def get_sampling_rate (m : AsyncPowerMonitor) : ℚ :=
  if m.samples.length < 2 then 0
  else
    let count := min 10 m.samples.length
    let recent := m.samples.drop (m.samples.length - count)
    if count < 2 then 0
    else
      match recent.head?, recent.getLast? with
      | some first, some lastS =>
          let time_diff := lastS.time - first.time
          if time_diff ≤ 0 then 0 else ((count : ℚ) - 1) / time_diff
      | _, _ => 0

/-- A CSV cell value: a string, a number, or Python `None` (written by the
`csv` module as an empty field). -/
inductive Cell where
  | str (s : String)
  | num (q : ℚ)
  | absent
deriving DecidableEq, Repr

/-- A row dict as built in `main`'s export loop: an association list keyed
by column name, in insertion order. -/
abbrev Row := List (String × Cell)

/-- Coerce an optional numeric JSON field to a cell. -/
def cellOfOpt : Option ℚ → Cell
  | some q => .num q
  | none => .absent

/-- Python `round(x, 6)` on exact values: round half to even at the sixth
decimal place. -/
def roundHalfEven (q : ℚ) : ℤ :=
  let f := ⌊q⌋
  let r := q - f
  if r < 1 / 2 then f
  else if 1 / 2 < r then f + 1
  else if f % 2 = 0 then f else f + 1

/-- Embeds `round(elapsed_seconds, 6)`. -/
def round6 (q : ℚ) : ℚ := (roundHalfEven (q * 1000000) : ℚ) / 1000000

/-- The two per-power-supply columns the export loop writes for one supply:
`ps_<id>_output_watts` then `ps_<id>_input_watts`. -/
def psFieldCells (ps : PowerSupplyReading) : List (String × Cell) :=
  [("ps_" ++ ps.id ++ "_output_watts", cellOfOpt ps.output_watts),
   ("ps_" ++ ps.id ++ "_input_watts", cellOfOpt ps.input_watts)]

/-- The row dict built from the latest sample in `main`'s export loop:
`timestamp`, `elapsed_seconds` (rounded to 6 places), `total_power_watts`,
then, when `power_supplies` is non-empty, the two columns per supply. -/
def rowOfSample (s : Sample) (elapsed : ℚ) : Row :=
  [("timestamp", .str s.timestamp),
   ("elapsed_seconds", .num (round6 elapsed)),
   ("total_power_watts", .num s.power)]
  ++ (s.power_supplies.map psFieldCells).flatten

/-- Embeds `power_supply_ids` in `main`: the ids of the latest sample's power
supplies when a latest sample exists and its `power_supplies` list is
non-empty (truthy), `[]` otherwise. -/
def headerSupplyIds (latest : Option Sample) : List String :=
  match latest with
  | some s => if s.power_supplies.isEmpty then [] else s.power_supplies.map (fun p => p.id)
  | none => []

/-- The CSV `fieldnames` built in `main`: the three fixed columns followed
by `ps_<id>_output_watts`, `ps_<id>_input_watts` for each id of
`power_supply_ids`. -/
def csvFieldnames (latest : Option Sample) : List String :=
  ["timestamp", "elapsed_seconds", "total_power_watts"]
  ++ ((headerSupplyIds latest).map
        (fun i => ["ps_" ++ i ++ "_output_watts", "ps_" ++ i ++ "_input_watts"])).flatten

/-- Embeds `csv.DictWriter` with default `extrasaction='raise'` and default
`restval=None` writing one row: raises `ValueError` when the row dict holds
a key outside `fieldnames`, otherwise emits one cell per field name, with
`restval` for fields the row lacks. -/
def dictWriterWriterow (fieldnames : List String) (row : Row) :
    Except String (List Cell) :=
  if row.all (fun kv => decide (kv.1 ∈ fieldnames)) then
    .ok (fieldnames.map (fun f => (row.lookup f).getD .absent))
  else
    .error "ValueError: dict contains fields not in fieldnames"

/-- Modelled from the claim's words, for comparison with the code's
`power_supply_ids`: the id set of the first buffered Sample carrying
non-empty power-supply data (empty when there is none). -/
def firstNonemptySupplyIds (samples : List Sample) : List String :=
  match samples.find? (fun s => !s.power_supplies.isEmpty) with
  | some s => s.power_supplies.map (fun p => p.id)
  | none => []

/-- Configuration of `main`'s export loop: `args.interval`, `args.duration`,
`args.buffer_size`, and `start_time`. -/
structure ExporterConfig where
  interval : ℚ
  duration : ℚ
  bufferSize : Nat
  startTime : ℚ
deriving DecidableEq, Repr

/-- Mutable state of `main`'s export loop: the in-memory write `buffer`,
the rows whose converted lines the CSV writer has written to the file
(`sink`, in write order), `next_sample_time`, and `samples_collected`. -/
structure ExporterState where
  buffer : List Row
  sink : List Row
  nextSampleTime : ℚ
  samplesCollected : Nat
deriving DecidableEq, Repr

/-- The per-iteration inputs of the export loop: `time.time()` at the top of
the iteration, and the monitor's latest sample (read through
`get_latest_sample`, which runs concurrently, hence an input here). -/
structure ExporterInput where
  currentTime : ℚ
  latest : Option Sample
deriving DecidableEq, Repr

/-- Embeds `csv.DictWriter.writerows(rowdicts)`: the underlying writer
consumes `map(self._dict_to_list, rowdicts)` lazily, writing one converted
row at a time — rows before the first offending row are already in the file
when `_dict_to_list` raises `ValueError`, and the rest are never written.
Returns the sink after the call (each written line is the
`dictWriterWriterow` projection of the recorded row) and the raised error,
if any. -/
def dictWriterWriterows (fieldnames : List String) (sink : List Row) :
    List Row → List Row × Option String
  | [] => (sink, none)
  | r :: rest =>
      match dictWriterWriterow fieldnames r with
      | .ok _ => dictWriterWriterows fieldnames (sink ++ [r]) rest
      | .error e => (sink, some e)

/-- Observable record of one export-loop iteration: whether the duration
check broke out of the loop, the row appended to the write buffer (if any),
the batch a successful flush wrote (if one happened), and the
`csv.DictWriter` error a failed flush raised (if one happened). -/
structure TickLog where
  stopped : Bool
  appendedRow : Option Row
  flushedRows : Option (List Row)
  flushError : Option String
deriving DecidableEq, Repr

/-- The sampling block of one export-loop iteration
(`if current_time >= next_sample_time:`): when due, read the latest sample;
if one exists, append its row to the write buffer and bump
`samples_collected`; either way set `next_sample_time = current_time +
interval`.  Returns the appended row, if any. -/
def exportPhase (cfg : ExporterConfig) (st : ExporterState)
    (inp : ExporterInput) : ExporterState × Option Row :=
  if st.nextSampleTime ≤ inp.currentTime then
    match inp.latest with
    | some s =>
        let row := rowOfSample s (inp.currentTime - cfg.startTime)
        ({ st with buffer := st.buffer ++ [row],
                   samplesCollected := st.samplesCollected + 1,
                   nextSampleTime := inp.currentTime + cfg.interval }, some row)
    | none =>
        ({ st with nextSampleTime := inp.currentTime + cfg.interval }, none)
  else (st, none)

/-- The flush block of one export-loop iteration
(`if len(buffer) >= args.buffer_size:`): call `writer.writerows(buffer)`;
on success `csvfile.flush()` runs and `buffer = []` clears the buffer; if
`writerows` raises mid-way, the rows written so far stay in the file, the
clearing line is never reached, and the exception propagates.  Returns the
successfully flushed batch or the raised error. -/
def flushPhase (fieldnames : List String) (bufferSize : Nat)
    (st : ExporterState) : ExporterState × Option (List Row) × Option String :=
  if bufferSize ≤ st.buffer.length then
    let written := dictWriterWriterows fieldnames st.sink st.buffer
    match written.2 with
    | none => ({ st with sink := written.1, buffer := [] }, some st.buffer, none)
    | some e => ({ st with sink := written.1 }, none, some e)
  else (st, none, none)

/-- One full iteration of `main`'s export loop: the duration check at the
top (`args.duration > 0 and (current_time - start_time) >= args.duration`)
breaks out before anything else; otherwise the sampling block runs, then
the flush block against the frozen CSV `fieldnames`. -/
def exporterTick (cfg : ExporterConfig) (fieldnames : List String)
    (st : ExporterState) (inp : ExporterInput) : ExporterState × TickLog :=
  if 0 < cfg.duration ∧ cfg.duration ≤ inp.currentTime - cfg.startTime then
    (st, { stopped := true, appendedRow := none, flushedRows := none,
           flushError := none })
  else
    let sampled := exportPhase cfg st inp
    let flushed := flushPhase fieldnames cfg.bufferSize sampled.1
    (flushed.1,
     { stopped := false, appendedRow := sampled.2,
       flushedRows := flushed.2.1, flushError := flushed.2.2 })

/-- The export loop over a trace of iteration inputs, ending early when the
duration check fires or a flush raises — the `ValueError` is not caught by
the loop's `except KeyboardInterrupt` and escapes the `while` (an exhausted
trace models `KeyboardInterrupt`). -/
def exporterLoop (cfg : ExporterConfig) (fieldnames : List String)
    (st : ExporterState) : List ExporterInput → ExporterState × List TickLog
  | [] => (st, [])
  | inp :: rest =>
      let step := exporterTick cfg fieldnames st inp
      if step.2.stopped || step.2.flushError.isSome then (step.1, [step.2])
      else
        let next := exporterLoop cfg fieldnames step.1 rest
        (next.1, step.2 :: next.2)

/-- The final `if buffer: writer.writerows(buffer)` after the loop exits
normally — it runs only after `break` or `KeyboardInterrupt`, may itself
raise the `DictWriter` `ValueError` mid-way, and does not clear `buffer`. -/
def finalFlush (fieldnames : List String) (st : ExporterState) :
    ExporterState × Option String :=
  if st.buffer.isEmpty then (st, none)
  else
    let written := dictWriterWriterows fieldnames st.sink st.buffer
    ({ st with sink := written.1 }, written.2)

/-- The flush error that ended the loop, if any: the loop stops right after
a failing flush, so only its last log can carry one. -/
def loopFlushError (logs : List TickLog) : Option String :=
  logs.getLast?.bind (fun l => l.flushError)

/-- The whole export phase of `main`: run the loop; if it ended by a flush
raising, that exception escapes (bypassing `except KeyboardInterrupt`) and
the final flush never runs; otherwise write any remaining buffered rows.
Returns the final state, the logs, and the exception that escaped, if
any. -/
def exporterRun (cfg : ExporterConfig) (fieldnames : List String)
    (st : ExporterState) (inputs : List ExporterInput) :
    ExporterState × List TickLog × Option String :=
  let looped := exporterLoop cfg fieldnames st inputs
  match loopFlushError looped.2 with
  | some e => (looped.1, looped.2, some e)
  | none =>
      let fin := finalFlush fieldnames looped.1
      (fin.1, looped.2, fin.2)

/-- Holds when the latest sample a tick reads (if any) only carries supply
ids inside the frozen header id set, so its row fits the frozen columns. -/
def latestFits (latestHdr : Option Sample) (inp : ExporterInput) : Bool :=
  match inp.latest with
  | some s =>
      s.power_supplies.all (fun ps => decide (ps.id ∈ headerSupplyIds latestHdr))
  | none => true

/-- The rows appended to the write buffer over a run, in order. -/
def rowsAppended (logs : List TickLog) : List Row :=
  logs.filterMap (fun l => l.appendedRow)

/-- Returns `true` iff this iteration's `get_power_consumption` call succeeds. -/
def powerOk (inp : PollInput) : Bool :=
  match inp.powerRes with
  | .ok _ => true
  | .error _ => false

/-- Returns `true` iff this iteration's `get_power_supplies` call would succeed. -/
def suppliesOk (inp : PollInput) : Bool :=
  match inp.suppliesRes with
  | .ok _ => true
  | .error _ => false

/-- Fixture: a power-supply reading as a mock endpoint would report it. -/
def psPS1 : PowerSupplyReading :=
  { id := "PS1", input_watts := some 85, output_watts := some 80,
    state := some "Enabled" }

/-- Fixture: a sample carrying one power supply. -/
def sWithPS : Sample :=
  { timestamp := "t0", time := 0, power := 150, power_supplies := [psPS1] }

/-- Fixture: a sample carrying no power-supply data. -/
def sNoPS : Sample :=
  { timestamp := "t1", time := 1, power := 151, power_supplies := [] }

/-- Fixture: a second plain sample. -/
def sNoPS2 : Sample :=
  { timestamp := "t2", time := 2, power := 152, power_supplies := [] }

/-- Fixture: a running monitor with an empty buffer of capacity 1000. -/
def monEmpty : AsyncPowerMonitor :=
  { samples := [], maxSamples := 1000, running := true, thread := some 0,
    lastError := none }

/-- Fixture: an iteration whose power fetch succeeds and whose power-supply
fetch would fail. -/
def inpSupplyFail : PollInput :=
  { powerRes := .ok 150, suppliesRes := .error "supplies fetch failed",
    timestamp := "t0", time := 0 }

/-- Claim C9: `get_samples` and `get_latest_sample` are idempotent reads —
repeating either with no intervening poller activity returns identical
results and leaves the monitor state unchanged; `get_latest_sample` never
fails, returning the most recent sample of a non-empty buffer and `none` on
an empty one. -/
theorem c9_reads_idempotent (m : AsyncPowerMonitor) (since_time : Option ℚ) :
    ((get_samples m since_time).2 = m ∧
     get_samples (get_samples m since_time).2 since_time =
       get_samples m since_time) ∧
    ((get_latest_sample m).2 = m ∧
     get_latest_sample (get_latest_sample m).2 = get_latest_sample m) ∧
    ((get_latest_sample m).1 = none ↔ m.samples = []) ∧
    (∀ (front : List Sample) (s : Sample),
       m.samples = front ++ [s] → (get_latest_sample m).1 = some s) := by
  refine ⟨⟨?_, ?_⟩, ⟨rfl, rfl⟩, ?_, ?_⟩
  · cases since_time <;> rfl
  · cases since_time <;> rfl
  · simp [get_latest_sample]
  · intro front s h
    simp [get_latest_sample, h]

/-- Witness for C9 at a concrete two-sample buffer. -/
theorem c9_reads_idempotent_witness :
    (get_latest_sample
        { samples := [sWithPS, sNoPS], maxSamples := 1000, running := true,
          thread := some 0, lastError := none }).1 = some sNoPS :=
  (c9_reads_idempotent
      { samples := [sWithPS, sNoPS], maxSamples := 1000, running := true,
        thread := some 0, lastError := none } none).2.2.2 [sWithPS] sNoPS rfl

/-- Claim C10: `start` on a running monitor returns `False` and changes
nothing (no new thread, flags and samples untouched); on a stopped monitor
it sets the running flag, records the new thread, and returns `True`. -/
theorem c10_start_idempotent (m : AsyncPowerMonitor) (newThread : Nat) :
    (m.running = true → m.start newThread = (false, m)) ∧
    (m.running = false →
      (m.start newThread).1 = true ∧
      (m.start newThread).2.running = true ∧
      (m.start newThread).2.thread = some newThread ∧
      (m.start newThread).2.samples = m.samples ∧
      (m.start newThread).2.lastError = m.lastError ∧
      (m.start newThread).2.maxSamples = m.maxSamples) := by
  constructor
  · intro h
    simp [AsyncPowerMonitor.start, h]
  · intro h
    simp [AsyncPowerMonitor.start, h]

/-- Witness for C10: starting an already-running monitor is a no-op, and
starting a fresh monitor succeeds. -/
theorem c10_start_idempotent_witness :
    monEmpty.start 7 = (false, monEmpty) ∧
    ((AsyncPowerMonitor.init 1000).start 7).1 = true :=
  ⟨(c10_start_idempotent monEmpty 7).1 rfl,
   ((c10_start_idempotent (AsyncPowerMonitor.init 1000) 7).2 rfl).1⟩

/-- Claim C1 as stated is false: on an iteration whose power fetch succeeds
(`powerOk`) but whose power-supply fetch fails, no Sample at all is
appended — the exception from `get_power_supplies` is caught by the
iteration's single `try` block, so the whole Sample is dropped rather than
appended with an empty power-supply list. -/
theorem c1_counterexample :
    powerOk inpSupplyFail = true ∧
    suppliesOk inpSupplyFail = false ∧
    (monitorStep monEmpty inpSupplyFail).2.appended = none ∧
    (monitorStep monEmpty inpSupplyFail).1.samples = [] :=
  ⟨rfl, rfl, rfl, rfl⟩

/-- Claim C1 amended: when the power fetch succeeds but the power-supply
fetch fails on an iteration that attempts it (buffered count a multiple of
20), the whole Sample is dropped: nothing is appended, the error is
recorded in `last_error`, and the loop sleeps the 1.0 s error backoff. -/
theorem c1_amended (m : AsyncPowerMonitor) (inp : PollInput) (p : ℚ)
    (e : String) (hp : inp.powerRes = .ok p) (hs : inp.suppliesRes = .error e)
    (h20 : m.samples.length % 20 = 0) :
    (monitorStep m inp).1.samples = m.samples ∧
    (monitorStep m inp).2.appended = none ∧
    (monitorStep m inp).2.calledSupplies = true ∧
    (monitorStep m inp).1.lastError = some e ∧
    (monitorStep m inp).2.slept = 1 := by
  simp [monitorStep, hp, hs, h20]

/-- Witness for the amended C1 at a concrete monitor and iteration. -/
theorem c1_amended_witness :
    (monitorStep monEmpty inpSupplyFail).1.samples = monEmpty.samples ∧
    (monitorStep monEmpty inpSupplyFail).2.appended = none ∧
    (monitorStep monEmpty inpSupplyFail).2.calledSupplies = true ∧
    (monitorStep monEmpty inpSupplyFail).1.lastError =
      some "supplies fetch failed" ∧
    (monitorStep monEmpty inpSupplyFail).2.slept = 1 :=
  c1_amended monEmpty inpSupplyFail 150 "supplies fetch failed" rfl rfl rfl


/-- A `deque(maxlen)` append keeps exactly the last `maxlen` elements. -/
lemma dequeAppend_eq_rtake {α : Type} (C : Nat) (b : List α) (x : α) :
    dequeAppend C b x = (b ++ [x]).rtake C := by
  simp only [dequeAppend, List.rtake]
  split
  · rfl
  · next h =>
    have h0 : (b ++ [x]).length - C = 0 := by omega
    rw [h0, List.drop_zero]

/-- Taking the last `C` of an already-truncated list plus a new element is
the same as truncating after appending. -/
lemma rtake_append_rtake {α : Type} (C : Nat) (l : List α) (x : α) :
    (l.rtake C ++ [x]).rtake C = (l ++ [x]).rtake C := by
  simp only [List.rtake_eq_reverse_take_reverse, List.reverse_append,
    List.reverse_singleton, List.singleton_append, List.reverse_reverse]
  cases C with
  | zero => simp
  | succ c =>
    simp only [List.take_succ_cons, List.take_take]
    rw [Nat.min_eq_left (Nat.le_succ c)]

/-- Folding `deque` appends from the empty deque retains exactly the last
`C` inserted elements. -/
lemma foldl_dequeAppend_rtake {α : Type} (C : Nat) (xs : List α) :
    xs.foldl (dequeAppend C) [] = xs.rtake C := by
  induction xs using List.reverseRecOn with
  | nil => simp [List.rtake]
  | append_singleton ys y ih =>
    rw [List.foldl_append, List.foldl_cons, List.foldl_nil, ih,
      dequeAppend_eq_rtake, rtake_append_rtake]

/-- Claim C6: for every capacity `C` and sequence of more than `C` appended
samples, the deque holds exactly the last `C` of them in insertion order,
and its length never exceeds `C` at any intermediate point. -/
theorem c6_ringbuffer (C : Nat) (xs : List Sample) (_h : C < xs.length) :
    xs.foldl (dequeAppend C) [] = xs.drop (xs.length - C) ∧
    ∀ k : Nat, ((xs.take k).foldl (dequeAppend C) []).length ≤ C := by
  constructor
  · rw [foldl_dequeAppend_rtake]
    rfl
  · intro k
    rw [foldl_dequeAppend_rtake]
    simp only [List.rtake, List.length_drop]
    omega

/-- Witness for C6: capacity 2, three insertions keep the last two. -/
theorem c6_ringbuffer_witness :
    2 < ([sWithPS, sNoPS, sNoPS2] : List Sample).length ∧
    [sWithPS, sNoPS, sNoPS2].foldl (dequeAppend 2) [] =
      [sWithPS, sNoPS, sNoPS2].drop
        (([sWithPS, sNoPS, sNoPS2] : List Sample).length - 2) :=
  ⟨by decide, (c6_ringbuffer 2 [sWithPS, sNoPS, sNoPS2] (by decide)).1⟩

/-- Evaluates `get_sampling_rate` on a buffer of at least two samples, in terms of the
first and last of its most recent `min 10 (length)` entries (the inner
`count < 2` test of the source is unreachable there). -/
lemma get_sampling_rate_spec (m : AsyncPowerMonitor) (first lastS : Sample)
    (hlen : 2 ≤ m.samples.length)
    (h1 : (m.samples.drop (m.samples.length - min 10 m.samples.length)).head? =
      some first)
    (h2 : (m.samples.drop (m.samples.length - min 10 m.samples.length)).getLast? =
      some lastS) :
    get_sampling_rate m =
      if lastS.time - first.time ≤ 0 then 0
      else (((min 10 m.samples.length : ℕ) : ℚ) - 1) / (lastS.time - first.time) := by
  have hnot : ¬ m.samples.length < 2 := by omega
  have hc : ¬ min 10 m.samples.length < 2 := by
    have := le_min (show 2 ≤ 10 by norm_num) hlen
    omega
  simp only [get_sampling_rate, if_neg hnot, if_neg hc, h1, h2]

/-- Claim C5: the rate estimator returns 0 on a buffer of fewer than 2
samples; otherwise it takes the most recent `min 10 (length)` samples and
returns 0 when their time span is ≤ 0, and `(count − 1) / span` when the
span is positive. -/
theorem c5_sampling_rate (m : AsyncPowerMonitor) :
    (m.samples.length < 2 → get_sampling_rate m = 0) ∧
    (∀ first lastS : Sample,
      2 ≤ m.samples.length →
      (m.samples.rtake (min 10 m.samples.length)).head? = some first →
      (m.samples.rtake (min 10 m.samples.length)).getLast? = some lastS →
      ((lastS.time - first.time ≤ 0 → get_sampling_rate m = 0) ∧
       (0 < lastS.time - first.time →
         get_sampling_rate m =
           (((min 10 m.samples.length : ℕ) : ℚ) - 1) /
             (lastS.time - first.time)))) := by
  constructor
  · intro h
    simp [get_sampling_rate, h]
  · intro first lastS hlen h1 h2
    simp only [List.rtake] at h1 h2
    rw [get_sampling_rate_spec m first lastS hlen h1 h2]
    constructor
    · intro hle
      rw [if_pos hle]
    · intro hpos
      rw [if_neg (not_le.mpr hpos)]

/-- Witness for C5: on two samples whose times are exactly 1.0 s apart the
estimator returns 1.0. -/
theorem c5_sampling_rate_witness :
    get_sampling_rate
      { samples := [sWithPS, sNoPS], maxSamples := 1000, running := true,
        thread := some 0, lastError := none } = 1 := by
  have h :=
    (c5_sampling_rate
        { samples := [sWithPS, sNoPS], maxSamples := 1000, running := true,
          thread := some 0, lastError := none }).2 sWithPS sNoPS
      (by decide) (by decide) (by decide)
  rw [h.2 (by norm_num [sWithPS, sNoPS])]
  norm_num [sWithPS, sNoPS]

/-- Fixture: an iteration where both fetches succeed. -/
def okInput : PollInput :=
  { powerRes := .ok 100, suppliesRes := .ok [], timestamp := "t", time := 0 }

/-- Fixture: default log used with `List.getD`. -/
def defaultIterLog : IterLog :=
  { calledSupplies := false, appended := none, slept := 0,
    lastErrorAfter := none }

/-- Fixture: a running monitor with an empty buffer of capacity 20. -/
def monCap20 : AsyncPowerMonitor :=
  { samples := [], maxSamples := 20, running := true, thread := some 0,
    lastError := none }

/-- Claim C3 as stated is false: with capacity 20 and 22 consecutive
successful polls, `get_power_supplies` is called on iterations 20 and 21 —
two consecutive successful polls (the 21st and 22nd) — and 3 times in all,
because once the deque is full its length sticks at 20, a multiple of 20.
On "exactly every 20th successful poll" it would be called only on
iterations 0 and 20. -/
theorem c3_counterexample :
    (List.replicate 22 okInput).all powerOk = true ∧
    ((monitorRun monCap20 (List.replicate 22 okInput)).2.getD 20
        defaultIterLog).calledSupplies = true ∧
    ((monitorRun monCap20 (List.replicate 22 okInput)).2.getD 21
        defaultIterLog).calledSupplies = true ∧
    ((monitorRun monCap20 (List.replicate 22 okInput)).2.filter
        (fun l => l.calledSupplies)).length = 3 :=
  ⟨rfl, rfl, rfl, rfl⟩

/-- A `deque(maxlen=C)` append yields length `min (previous + 1) C`. -/
lemma dequeAppend_length {α : Type} (C : Nat) (b : List α) (x : α) :
    (dequeAppend C b x).length = min (b.length + 1) C := by
  rw [dequeAppend_eq_rtake]
  simp only [List.rtake, List.length_drop, List.length_append,
    List.length_singleton]
  omega

/-- An iteration whose two fetches both succeed appends exactly one sample
to the deque and preserves the capacity. -/
lemma monitorStep_ok_samples (m : AsyncPowerMonitor) (inp : PollInput)
    (hp : powerOk inp = true) (hs : suppliesOk inp = true) :
    ∃ s : Sample,
      (monitorStep m inp).1.samples = dequeAppend m.maxSamples m.samples s ∧
      (monitorStep m inp).2.appended = some s ∧
      (monitorStep m inp).1.maxSamples = m.maxSamples := by
  cases hpr : inp.powerRes with
  | error e => simp [powerOk, hpr] at hp
  | ok p =>
    cases hsr : inp.suppliesRes with
    | error e => simp [suppliesOk, hsr] at hs
    | ok ps =>
      by_cases h20 : m.samples.length % 20 = 0
      · refine ⟨⟨inp.timestamp, inp.time, p, ps⟩, ?_, ?_, ?_⟩ <;>
          simp [monitorStep, hpr, hsr, h20]
      · refine ⟨⟨inp.timestamp, inp.time, p, []⟩, ?_, ?_, ?_⟩ <;>
          simp [monitorStep, hpr, hsr, h20]

/-- Over a run of all-successful iterations the buffered count grows by one
per iteration up to the capacity and then sticks there. -/
lemma monitorRun_length_ok (C : Nat) (inputs : List PollInput) :
    ∀ m : AsyncPowerMonitor, m.maxSamples = C →
      (∀ inp ∈ inputs, powerOk inp = true ∧ suppliesOk inp = true) →
      m.samples.length ≤ C →
      (monitorRun m inputs).1.samples.length =
        min (m.samples.length + inputs.length) C := by
  induction inputs with
  | nil =>
    intro m hC hok hlen
    simp [monitorRun]
    omega
  | cons inp rest ih =>
    intro m hC hok hlen
    obtain ⟨hpow, hsup⟩ := hok inp (by simp)
    obtain ⟨s, hsamp, happ, hmax⟩ := monitorStep_ok_samples m inp hpow hsup
    have hlen1 : (monitorStep m inp).1.samples.length =
        min (m.samples.length + 1) C := by
      rw [hsamp, dequeAppend_length, hC]
    have hrec := ih (monitorStep m inp).1 (hmax.trans hC)
      (fun i hi => hok i (List.mem_cons_of_mem _ hi))
      (by rw [hlen1]; omega)
    show (monitorRun (monitorStep m inp).1 rest).1.samples.length = _
    rw [hrec, hlen1]
    simp only [List.length_cons]
    omega

/-- Claim C3 amended: `get_power_supplies` is attempted on an iteration iff
the power fetch succeeds and the number of samples currently buffered is a
multiple of 20; starting from an empty buffer of capacity `C`, after `k`
all-successful iterations the buffered count is `min k C` — so the
20-sample cadence holds only until the deque fills, after which (capacity a
multiple of 20, e.g. the default 1000) the supply fetch runs on every
successful poll. -/
theorem c3_amended :
    (∀ (m : AsyncPowerMonitor) (inp : PollInput), powerOk inp = true →
       ((monitorStep m inp).2.calledSupplies = true ↔
         m.samples.length % 20 = 0)) ∧
    (∀ (m : AsyncPowerMonitor) (inp : PollInput), powerOk inp = false →
       (monitorStep m inp).2.calledSupplies = false) ∧
    (∀ (C : Nat) (inputs : List PollInput),
       (∀ inp ∈ inputs, powerOk inp = true ∧ suppliesOk inp = true) →
       (monitorRun
           { samples := [], maxSamples := C, running := true,
             thread := some 0, lastError := none } inputs).1.samples.length =
         min inputs.length C) := by
  refine ⟨?_, ?_, ?_⟩
  · intro m inp hp
    cases hpr : inp.powerRes with
    | error e => simp [powerOk, hpr] at hp
    | ok p =>
      by_cases h20 : m.samples.length % 20 = 0
      · cases hsr : inp.suppliesRes <;> simp [monitorStep, hpr, hsr, h20]
      · cases hsr : inp.suppliesRes <;> simp [monitorStep, hpr, hsr, h20]
  · intro m inp hp
    cases hpr : inp.powerRes with
    | error e => simp [monitorStep, hpr]
    | ok p => simp [powerOk, hpr] at hp
  · intro C inputs hok
    rw [monitorRun_length_ok C inputs _ rfl hok (by simp)]
    simp

/-- Witness for the amended C3 at capacity 20 with 22 successful polls. -/
theorem c3_amended_witness :
    ((monitorStep monCap20 okInput).2.calledSupplies = true ↔
      monCap20.samples.length % 20 = 0) ∧
    (monitorRun monCap20 (List.replicate 22 okInput)).1.samples.length =
      min (List.replicate 22 okInput).length 20 :=
  ⟨c3_amended.1 monCap20 okInput rfl,
   c3_amended.2.2 20 (List.replicate 22 okInput) (by decide)⟩

/-- On an iteration whose power-supply fetch would succeed, a sample is
appended exactly when the power fetch succeeds. -/
lemma monitorStep_appended_isSome (m : AsyncPowerMonitor) (inp : PollInput)
    (hs : suppliesOk inp = true) :
    (monitorStep m inp).2.appended.isSome = powerOk inp := by
  cases hpr : inp.powerRes with
  | error e => simp [monitorStep, powerOk, hpr]
  | ok p =>
    cases hsr : inp.suppliesRes with
    | error e => simp [suppliesOk, hsr] at hs
    | ok ps =>
      by_cases h20 : m.samples.length % 20 = 0 <;>
        simp [monitorStep, powerOk, hpr, hsr, h20]

/-- A failed power fetch appends nothing, sleeps the 1.0 s backoff, and
overwrites `last_error` with the new message, leaving the deque intact. -/
lemma monitorStep_error (m : AsyncPowerMonitor) (inp : PollInput) (e : String)
    (he : inp.powerRes = .error e) :
    (monitorStep m inp).2.appended = none ∧
    (monitorStep m inp).2.slept = 1 ∧
    (monitorStep m inp).2.lastErrorAfter = some e ∧
    (monitorStep m inp).1.lastError = some e ∧
    (monitorStep m inp).1.samples = m.samples := by
  simp [monitorStep, he]

/-- Per-run statistics of the poller loop: one log per iteration, appended
samples count the successful power fetches, and every failed fetch shows
the drop/backoff/record behavior. -/
lemma monitorRun_log_stats (inputs : List PollInput) :
    ∀ m : AsyncPowerMonitor,
      (∀ inp ∈ inputs, suppliesOk inp = true) →
      (monitorRun m inputs).2.length = inputs.length ∧
      ((monitorRun m inputs).2.filter (fun l => l.appended.isSome)).length =
        (inputs.filter powerOk).length ∧
      (∀ pr ∈ inputs.zip (monitorRun m inputs).2, ∀ e : String,
         pr.1.powerRes = .error e →
         pr.2.appended = none ∧ pr.2.slept = 1 ∧
         pr.2.lastErrorAfter = some e) := by
  induction inputs with
  | nil =>
    intro m hsup
    simp [monitorRun]
  | cons inp rest ih =>
    intro m hsup
    obtain ⟨ihlen, ihcount, iherr⟩ := ih (monitorStep m inp).1
      (fun i hi => hsup i (List.mem_cons_of_mem _ hi))
    have hs := hsup inp (List.mem_cons_self _ _)
    have hrun : monitorRun m (inp :: rest) =
        ((monitorRun (monitorStep m inp).1 rest).1,
         (monitorStep m inp).2 :: (monitorRun (monitorStep m inp).1 rest).2) :=
      rfl
    refine ⟨?_, ?_, ?_⟩
    · rw [hrun]
      simpa using ihlen
    · rw [hrun]
      simp only [List.filter_cons, monitorStep_appended_isSome m inp hs]
      cases hok : powerOk inp <;> simp [ihcount]
    · rw [hrun]
      intro pr hpr e he
      simp only [List.zip_cons_cons, List.mem_cons] at hpr
      rcases hpr with hpr | hpr
      · subst hpr
        simp only at he
        obtain ⟨h1, h2, h3, _, _⟩ := monitorStep_error m inp e he
        exact ⟨h1, h2, h3⟩
      · exact iherr pr hpr e he

/-- Claim C7: over any run whose power fetches alternate between success
and failure (power-supply fetches succeeding), the loop never terminates
early (one log per iteration), the number of appended Samples equals the
number of successful fetches, and every failed fetch appends nothing,
records its message into the last-error field, and sleeps the 1.0 s
backoff. -/
theorem c7_alternating_failures (m : AsyncPowerMonitor)
    (inputs : List PollInput)
    (_halt : List.Chain' (fun a b => powerOk a ≠ powerOk b) inputs)
    (hsup : ∀ inp ∈ inputs, suppliesOk inp = true) :
    (monitorRun m inputs).2.length = inputs.length ∧
    ((monitorRun m inputs).2.filter (fun l => l.appended.isSome)).length =
      (inputs.filter powerOk).length ∧
    (∀ pr ∈ inputs.zip (monitorRun m inputs).2, ∀ e : String,
       pr.1.powerRes = .error e →
       pr.2.appended = none ∧ pr.2.slept = 1 ∧
       pr.2.lastErrorAfter = some e) :=
  monitorRun_log_stats inputs m hsup

/-- Fixture: an iteration whose power fetch fails. -/
def errInput : PollInput :=
  { powerRes := .error "connection timeout", suppliesRes := .ok [],
    timestamp := "t", time := 0 }

/-- Witness for C7 on a concrete alternating success/failure trace. -/
theorem c7_alternating_failures_witness :
    ((monitorRun monEmpty [okInput, errInput, okInput, errInput]).2.filter
        (fun l => l.appended.isSome)).length =
      ([okInput, errInput, okInput, errInput].filter powerOk).length :=
  (c7_alternating_failures monEmpty [okInput, errInput, okInput, errInput]
    (by simp [List.chain'_cons, okInput, errInput, powerOk]) (by decide)).2.1

/-- Fixture: exporter config with interval 1 s, no duration limit, flush
threshold 1000. -/
def cfgLate : ExporterConfig :=
  { interval := 1, duration := 0, bufferSize := 1000, startTime := 0 }

/-- Fixture: a fresh exporter state. -/
def stFresh : ExporterState :=
  { buffer := [], sink := [], nextSampleTime := 0, samplesCollected := 0 }

/-- Fixture: a tick arriving 5 s late relative to the schedule. -/
def inpLate : ExporterInput := { currentTime := 5, latest := some sNoPS }

/-- Fixture: the CSV fieldnames frozen from a latest sample carrying no
power-supply data — the three base columns only. -/
def hdrNoPS : List String := csvFieldnames (some sNoPS)

/-- Claim C4 as stated is false: on a due tick the source sets
`next_sample_time = current_time + interval`, not
`next_sample_time += interval` — with the schedule at 0, interval 1 and the
tick arriving at time 5, the new schedule value is 6, not 1. -/
theorem c4_counterexample :
    stFresh.nextSampleTime ≤ inpLate.currentTime ∧
    (exporterTick cfgLate hdrNoPS stFresh inpLate).1.nextSampleTime = 6 ∧
    stFresh.nextSampleTime + cfgLate.interval = 1 ∧ (6 : ℚ) ≠ 1 := by
  refine ⟨by norm_num [stFresh, inpLate], ?_, by norm_num [stFresh, cfgLate],
    by norm_num⟩
  norm_num [exporterTick, exportPhase, flushPhase, cfgLate, stFresh, inpLate]

/-- The flush block below the threshold does nothing. -/
lemma flushPhase_lt (fieldnames : List String) (B : Nat) (st : ExporterState)
    (h : ¬ B ≤ st.buffer.length) :
    flushPhase fieldnames B st = (st, none, none) := by
  simp [flushPhase, h]

/-- Claim C4 amended: on every tick that does not hit the duration stop and
has reached `next_sample_time`, exactly one row is appended to the write
buffer when a latest Sample exists, and `next_sample_time` is set to
`current_time + interval` — hence advanced by at least the interval past
its previous value, a monotonically advancing open-loop schedule in which
missed ticks are not backfilled. -/
theorem c4_amended (cfg : ExporterConfig) (fieldnames : List String)
    (st : ExporterState) (inp : ExporterInput) (s : Sample)
    (hrun : ¬ (0 < cfg.duration ∧ cfg.duration ≤ inp.currentTime - cfg.startTime))
    (hdue : st.nextSampleTime ≤ inp.currentTime)
    (hlat : inp.latest = some s)
    (hnoflush : st.buffer.length + 1 < cfg.bufferSize) :
    (exporterTick cfg fieldnames st inp).2.appendedRow =
      some (rowOfSample s (inp.currentTime - cfg.startTime)) ∧
    (exporterTick cfg fieldnames st inp).1.buffer =
      st.buffer ++ [rowOfSample s (inp.currentTime - cfg.startTime)] ∧
    (exporterTick cfg fieldnames st inp).1.nextSampleTime =
      inp.currentTime + cfg.interval ∧
    st.nextSampleTime + cfg.interval ≤
      (exporterTick cfg fieldnames st inp).1.nextSampleTime := by
  have hexp : exportPhase cfg st inp =
      ({ st with
          buffer := st.buffer ++ [rowOfSample s (inp.currentTime - cfg.startTime)],
          samplesCollected := st.samplesCollected + 1,
          nextSampleTime := inp.currentTime + cfg.interval },
        some (rowOfSample s (inp.currentTime - cfg.startTime))) := by
    simp [exportPhase, hdue, hlat]
  have hfl : flushPhase fieldnames cfg.bufferSize (exportPhase cfg st inp).1 =
      ((exportPhase cfg st inp).1, none, none) := by
    refine flushPhase_lt fieldnames cfg.bufferSize _ ?_
    rw [hexp]
    simp only [List.length_append, List.length_singleton]
    omega
  have htick : exporterTick cfg fieldnames st inp =
      ((exportPhase cfg st inp).1,
       { stopped := false, appendedRow := (exportPhase cfg st inp).2,
         flushedRows := none, flushError := none }) := by
    simp only [exporterTick, if_neg hrun, hfl]
  rw [htick, hexp]
  refine ⟨rfl, rfl, rfl, ?_⟩
  simp only
  linarith

/-- Witness for the amended C4 at the concrete late tick. -/
theorem c4_amended_witness :
    (exporterTick cfgLate hdrNoPS stFresh inpLate).1.nextSampleTime =
      inpLate.currentTime + cfgLate.interval :=
  (c4_amended cfgLate hdrNoPS stFresh inpLate sNoPS
    (by norm_num [cfgLate, inpLate]) (by norm_num [stFresh, inpLate]) rfl
    (by norm_num [stFresh, cfgLate])).2.2.1

/-- The sampling block appends exactly its produced row (if any) to the
write buffer and never touches the sink. -/
lemma exportPhase_effect (cfg : ExporterConfig) (st : ExporterState)
    (inp : ExporterInput) :
    (exportPhase cfg st inp).1.buffer =
      st.buffer ++ ((exportPhase cfg st inp).2).toList ∧
    (exportPhase cfg st inp).1.sink = st.sink := by
  unfold exportPhase
  split
  · cases inp.latest <;> simp
  · simp

/-- A row the sampling block appends is the projection of the latest sample
the tick read. -/
lemma exportPhase_appended (cfg : ExporterConfig) (st : ExporterState)
    (inp : ExporterInput) (r : Row)
    (h : (exportPhase cfg st inp).2 = some r) :
    ∃ s : Sample, inp.latest = some s ∧
      r = rowOfSample s (inp.currentTime - cfg.startTime) := by
  by_cases hdue : st.nextSampleTime ≤ inp.currentTime
  · cases hl : inp.latest with
    | some s =>
      simp only [exportPhase, if_pos hdue, hl] at h
      exact ⟨s, rfl, (Option.some.inj h).symm⟩
    | none => simp [exportPhase, if_pos hdue, hl] at h
  · simp [exportPhase, hdue] at h

/-- Unfolds `rowsAppended` over a cons of logs. -/
lemma rowsAppended_cons (l : TickLog) (ls : List TickLog) :
    rowsAppended (l :: ls) = l.appendedRow.toList ++ rowsAppended ls := by
  cases h : l.appendedRow <;> simp [rowsAppended, List.filterMap_cons, h]

/-- Unfolding the export loop on a tick that ends it (duration stop or a
flush raising). -/
lemma exporterLoop_cons_stopped (cfg : ExporterConfig)
    (fieldnames : List String) (st : ExporterState) (inp : ExporterInput)
    (rest : List ExporterInput)
    (h : ((exporterTick cfg fieldnames st inp).2.stopped ||
          ((exporterTick cfg fieldnames st inp).2.flushError).isSome) = true) :
    exporterLoop cfg fieldnames st (inp :: rest) =
      ((exporterTick cfg fieldnames st inp).1,
       [(exporterTick cfg fieldnames st inp).2]) := by
  show (if (exporterTick cfg fieldnames st inp).2.stopped ||
          ((exporterTick cfg fieldnames st inp).2.flushError).isSome then
      ((exporterTick cfg fieldnames st inp).1,
       [(exporterTick cfg fieldnames st inp).2])
    else
      ((exporterLoop cfg fieldnames (exporterTick cfg fieldnames st inp).1 rest).1,
       (exporterTick cfg fieldnames st inp).2 ::
         (exporterLoop cfg fieldnames (exporterTick cfg fieldnames st inp).1 rest).2)) =
    _
  rw [if_pos h]

/-- Unfolding the export loop on a tick that keeps going. -/
lemma exporterLoop_cons_going (cfg : ExporterConfig)
    (fieldnames : List String) (st : ExporterState) (inp : ExporterInput)
    (rest : List ExporterInput)
    (h : ((exporterTick cfg fieldnames st inp).2.stopped ||
          ((exporterTick cfg fieldnames st inp).2.flushError).isSome) = false) :
    exporterLoop cfg fieldnames st (inp :: rest) =
      ((exporterLoop cfg fieldnames (exporterTick cfg fieldnames st inp).1 rest).1,
       (exporterTick cfg fieldnames st inp).2 ::
         (exporterLoop cfg fieldnames (exporterTick cfg fieldnames st inp).1 rest).2) := by
  show (if (exporterTick cfg fieldnames st inp).2.stopped ||
          ((exporterTick cfg fieldnames st inp).2.flushError).isSome then
      ((exporterTick cfg fieldnames st inp).1,
       [(exporterTick cfg fieldnames st inp).2])
    else
      ((exporterLoop cfg fieldnames (exporterTick cfg fieldnames st inp).1 rest).1,
       (exporterTick cfg fieldnames st inp).2 ::
         (exporterLoop cfg fieldnames (exporterTick cfg fieldnames st inp).1 rest).2)) =
    _
  rw [h]
  simp

/-- The final flush of an empty buffer is a no-op. -/
lemma finalFlush_of_empty (fieldnames : List String) (st : ExporterState)
    (h : st.buffer = []) : finalFlush fieldnames st = (st, none) := by
  simp [finalFlush, h]

/-- Fixture: exporter config with flush threshold 2. -/
def cfgFlush2 : ExporterConfig :=
  { interval := 1, duration := 0, bufferSize := 2, startTime := 0 }

/-- Fixture: exporter config with flush threshold 1, flushing on the first
appended row. -/
def cfgFlush1 : ExporterConfig :=
  { interval := 1, duration := 0, bufferSize := 1, startTime := 0 }

/-- Fixture: three export ticks, each with a latest sample available. -/
def ticksThree : List ExporterInput :=
  [{ currentTime := 0, latest := some sNoPS },
   { currentTime := 1, latest := some sNoPS },
   { currentTime := 2, latest := some sNoPS }]

/-- Fixture: a tick whose latest sample carries a power supply, producing a
row with columns outside `hdrNoPS`. -/
def tickBad : ExporterInput := { currentTime := 0, latest := some sWithPS }

/-- Fixture: a buffer whose first sample carries supply data but whose
latest sample does not. -/
def monTwoSamples : AsyncPowerMonitor :=
  { samples := [sWithPS, sNoPS], maxSamples := 1000, running := true,
    thread := some 0, lastError := none }

/-- Claim C2 as stated is false: the header id set comes from the *latest*
sample at header-writing time, not from the first sample carrying
non-empty power-supply data — here the latest sample has no supply data, so
the frozen column set has no supply columns even though the first sample
carries id "PS1"; and exporting a row whose id set differs from the frozen
set does fail, with the `csv.DictWriter` `ValueError`. -/
theorem c2_counterexample :
    csvFieldnames (get_latest_sample monTwoSamples).1 =
      ["timestamp", "elapsed_seconds", "total_power_watts"] ∧
    firstNonemptySupplyIds monTwoSamples.samples = ["PS1"] ∧
    dictWriterWriterow (csvFieldnames (get_latest_sample monTwoSamples).1)
        (rowOfSample sWithPS 2) =
      .error "ValueError: dict contains fields not in fieldnames" :=
  ⟨rfl, rfl, rfl⟩

/-- Every key of a row built from a sample is one of the three fixed
columns or a `ps_<id>_output_watts` / `ps_<id>_input_watts` column of one
of the sample's supplies. -/
lemma rowOfSample_keys (s : Sample) (elapsed : ℚ) (kv : String × Cell)
    (hkv : kv ∈ rowOfSample s elapsed) :
    kv.1 = "timestamp" ∨ kv.1 = "elapsed_seconds" ∨
    kv.1 = "total_power_watts" ∨
    ∃ ps ∈ s.power_supplies,
      kv.1 = "ps_" ++ ps.id ++ "_output_watts" ∨
      kv.1 = "ps_" ++ ps.id ++ "_input_watts" := by
  rw [rowOfSample, List.mem_append] at hkv
  rcases hkv with hkv | hkv
  · rw [List.mem_cons, List.mem_cons, List.mem_cons] at hkv
    rcases hkv with h | h | h | h
    · exact Or.inl (by rw [h])
    · exact Or.inr (Or.inl (by rw [h]))
    · exact Or.inr (Or.inr (Or.inl (by rw [h])))
    · exact absurd h (List.not_mem_nil _)
  · rw [List.mem_flatten] at hkv
    obtain ⟨l, hl, hkvl⟩ := hkv
    rw [List.mem_map] at hl
    obtain ⟨ps, hps, rfl⟩ := hl
    rw [psFieldCells, List.mem_cons, List.mem_cons] at hkvl
    refine Or.inr (Or.inr (Or.inr ⟨ps, hps, ?_⟩))
    rcases hkvl with h | h | h
    · exact Or.inl (by rw [h])
    · exact Or.inr (by rw [h])
    · exact absurd h (List.not_mem_nil _)

/-- Claim C2 amended: the column set is frozen once from the latest sample
at header-writing time; a later row whose supply ids all lie within the
frozen set is written with missing columns filled by the writer's default,
while a row carrying a supply column outside the frozen set makes the
writer raise `ValueError` — the export can fail on a differing id set. -/
theorem c2_amended (latest : Option Sample) (s : Sample) (elapsed : ℚ) :
    ((∀ ps ∈ s.power_supplies, ps.id ∈ headerSupplyIds latest) →
       dictWriterWriterow (csvFieldnames latest) (rowOfSample s elapsed) =
         .ok ((csvFieldnames latest).map
               (fun f => ((rowOfSample s elapsed).lookup f).getD .absent))) ∧
    ((∃ ps ∈ s.power_supplies,
        ("ps_" ++ ps.id ++ "_output_watts") ∉ csvFieldnames latest) →
       dictWriterWriterow (csvFieldnames latest) (rowOfSample s elapsed) =
         .error "ValueError: dict contains fields not in fieldnames") := by
  constructor
  · intro hids
    unfold dictWriterWriterow
    rw [if_pos]
    rw [List.all_eq_true]
    intro kv hkv
    rw [decide_eq_true_eq]
    rcases rowOfSample_keys s elapsed kv hkv with h | h | h | ⟨ps, hps, h⟩
    · rw [h, csvFieldnames]
      exact List.mem_append_left _ (by simp)
    · rw [h, csvFieldnames]
      exact List.mem_append_left _ (by simp)
    · rw [h, csvFieldnames]
      exact List.mem_append_left _ (by simp)
    · have hmem : ps.id ∈ headerSupplyIds latest := hids ps hps
      rw [csvFieldnames]
      refine List.mem_append_right _ (List.mem_flatten.mpr
        ⟨["ps_" ++ ps.id ++ "_output_watts", "ps_" ++ ps.id ++ "_input_watts"],
         List.mem_map_of_mem _ hmem, ?_⟩)
      rcases h with h | h
      · rw [h]
        exact List.mem_cons_self _ _
      · rw [h]
        exact List.mem_cons_of_mem _ (List.mem_cons_self _ _)
  · rintro ⟨ps, hps, hnot⟩
    unfold dictWriterWriterow
    rw [if_neg]
    intro hall
    rw [List.all_eq_true] at hall
    have hk := hall ("ps_" ++ ps.id ++ "_output_watts", cellOfOpt ps.output_watts)
      (by
        rw [rowOfSample]
        refine List.mem_append_right _ (List.mem_flatten.mpr
          ⟨psFieldCells ps, List.mem_map_of_mem _ hps, ?_⟩)
        rw [psFieldCells]
        exact List.mem_cons_self _ _)
    rw [decide_eq_true_eq] at hk
    exact hnot hk

/-- Witness for the amended C2: a row whose ids match the frozen set is
written successfully. -/
theorem c2_amended_witness :
    dictWriterWriterow (csvFieldnames (some sWithPS)) (rowOfSample sWithPS 1) =
      .ok ((csvFieldnames (some sWithPS)).map
            (fun f => ((rowOfSample sWithPS 1).lookup f).getD .absent)) :=
  (c2_amended (some sWithPS) sWithPS 1).1 (by decide)

/-- A row built from a sample whose supply ids all lie in the frozen header
id set only carries keys inside the frozen fieldnames. -/
lemma rowOfSample_fits (latest : Option Sample) (s : Sample) (elapsed : ℚ)
    (hids : ∀ ps ∈ s.power_supplies, ps.id ∈ headerSupplyIds latest) :
    ∀ kv ∈ rowOfSample s elapsed, kv.1 ∈ csvFieldnames latest := by
  intro kv hkv
  rcases rowOfSample_keys s elapsed kv hkv with h | h | h | ⟨ps, hps, h⟩
  · rw [h, csvFieldnames]
    exact List.mem_append_left _ (by simp)
  · rw [h, csvFieldnames]
    exact List.mem_append_left _ (by simp)
  · rw [h, csvFieldnames]
    exact List.mem_append_left _ (by simp)
  · have hmem : ps.id ∈ headerSupplyIds latest := hids ps hps
    rw [csvFieldnames]
    refine List.mem_append_right _ (List.mem_flatten.mpr
      ⟨["ps_" ++ ps.id ++ "_output_watts", "ps_" ++ ps.id ++ "_input_watts"],
       List.mem_map_of_mem _ hmem, ?_⟩)
    rcases h with h | h
    · rw [h]
      exact List.mem_cons_self _ _
    · rw [h]
      exact List.mem_cons_of_mem _ (List.mem_cons_self _ _)

/-- Writing one row whose keys all lie in the fieldnames succeeds. -/
lemma dictWriterWriterow_isOk (fieldnames : List String) (r : Row)
    (h : ∀ kv ∈ r, kv.1 ∈ fieldnames) :
    dictWriterWriterow fieldnames r =
      .ok (fieldnames.map (fun f => (r.lookup f).getD .absent)) := by
  unfold dictWriterWriterow
  rw [if_pos]
  rw [List.all_eq_true]
  intro kv hkv
  rw [decide_eq_true_eq]
  exact h kv hkv

/-- Writing a batch of rows that all fit the fieldnames appends every one
of them to the file, in order, raising nothing. -/
lemma dictWriterWriterows_ok (fieldnames : List String) :
    ∀ (rows sink : List Row),
      (∀ r ∈ rows, ∀ kv ∈ r, kv.1 ∈ fieldnames) →
      dictWriterWriterows fieldnames sink rows = (sink ++ rows, none) := by
  intro rows
  induction rows with
  | nil =>
    intro sink h
    simp [dictWriterWriterows]
  | cons r rest ih =>
    intro sink h
    have hr := dictWriterWriterow_isOk fieldnames r (h r (by simp))
    simp only [dictWriterWriterows, hr]
    rw [ih (sink ++ [r]) (fun x hx => h x (List.mem_cons_of_mem _ hx))]
    simp

/-- The flush block at or above the threshold, on a buffer whose rows all
fit the fieldnames: every row is written in order and the buffer clears. -/
lemma flushPhase_ok (fieldnames : List String) (B : Nat) (st : ExporterState)
    (hge : B ≤ st.buffer.length)
    (hfit : ∀ r ∈ st.buffer, ∀ kv ∈ r, kv.1 ∈ fieldnames) :
    flushPhase fieldnames B st =
      ({ st with sink := st.sink ++ st.buffer, buffer := [] },
       some st.buffer, none) := by
  simp only [flushPhase, if_pos hge,
    dictWriterWriterows_ok fieldnames st.buffer st.sink hfit]

/-- The final flush of a buffer whose rows all fit the fieldnames writes
every remaining row and raises nothing. -/
lemma finalFlush_ok (fieldnames : List String) (st : ExporterState)
    (hfit : ∀ r ∈ st.buffer, ∀ kv ∈ r, kv.1 ∈ fieldnames) :
    finalFlush fieldnames st =
      ({ st with sink := st.sink ++ st.buffer }, none) := by
  by_cases h : st.buffer = []
  · rw [finalFlush_of_empty fieldnames st h]
    have hsk : st.sink ++ st.buffer = st.sink := by
      rw [h, List.append_nil]
    rw [hsk]
  · simp only [finalFlush]
    rw [if_neg (by simpa using h)]
    simp only [dictWriterWriterows_ok fieldnames st.buffer st.sink hfit]

/-- Loop invariant of the export loop when every row produced fits the
frozen fieldnames: rows are conserved between sink and buffer, the buffer
stays strictly below the threshold, its rows keep fitting, no flush
raises, and every flush wrote exactly `bufferSize` rows. -/
lemma exporterLoop_spec (cfg : ExporterConfig) (fieldnames : List String)
    (hB : 1 ≤ cfg.bufferSize) (inputs : List ExporterInput) :
    ∀ st : ExporterState, st.buffer.length < cfg.bufferSize →
      (∀ r ∈ st.buffer, ∀ kv ∈ r, kv.1 ∈ fieldnames) →
      (∀ inp ∈ inputs, ∀ s : Sample, inp.latest = some s →
         ∀ elapsed : ℚ, ∀ kv ∈ rowOfSample s elapsed, kv.1 ∈ fieldnames) →
      ((exporterLoop cfg fieldnames st inputs).1.sink ++
          (exporterLoop cfg fieldnames st inputs).1.buffer =
        st.sink ++ st.buffer ++
          rowsAppended (exporterLoop cfg fieldnames st inputs).2) ∧
      (exporterLoop cfg fieldnames st inputs).1.buffer.length <
        cfg.bufferSize ∧
      (∀ r ∈ (exporterLoop cfg fieldnames st inputs).1.buffer,
         ∀ kv ∈ r, kv.1 ∈ fieldnames) ∧
      (∀ l ∈ (exporterLoop cfg fieldnames st inputs).2,
         l.flushError = none) ∧
      (∀ l ∈ (exporterLoop cfg fieldnames st inputs).2, ∀ rows : List Row,
         l.flushedRows = some rows → rows.length = cfg.bufferSize) := by
  induction inputs with
  | nil =>
    intro st hst hfitb hfin
    refine ⟨by simp [exporterLoop, rowsAppended], by simpa [exporterLoop],
      by simpa [exporterLoop] using hfitb, ?_, ?_⟩
    · simp [exporterLoop]
    · simp [exporterLoop]
  | cons inp rest ih =>
    intro st hst hfitb hfin
    by_cases hstop :
        0 < cfg.duration ∧ cfg.duration ≤ inp.currentTime - cfg.startTime
    · have htick : exporterTick cfg fieldnames st inp =
          (st, { stopped := true, appendedRow := none, flushedRows := none,
                 flushError := none }) := by
        simp only [exporterTick, if_pos hstop]
      rw [exporterLoop_cons_stopped cfg fieldnames st inp rest (by rw [htick]; rfl),
        htick]
      refine ⟨by simp [rowsAppended], hst, hfitb, ?_, ?_⟩
      · intro l hl
        simp only [List.mem_singleton] at hl
        subst hl
        rfl
      · intro l hl rows hr
        simp only [List.mem_singleton] at hl
        subst hl
        simp at hr
    · have hb1 := exportPhase_effect cfg st inp
      have hfitb1 : ∀ r ∈ (exportPhase cfg st inp).1.buffer,
          ∀ kv ∈ r, kv.1 ∈ fieldnames := by
        rw [hb1.1]
        intro r hr
        rw [List.mem_append] at hr
        rcases hr with hr | hr
        · exact hfitb r hr
        · cases happ : (exportPhase cfg st inp).2 with
          | none => rw [happ] at hr; simp at hr
          | some row =>
            rw [happ] at hr
            simp only [Option.toList_some, List.mem_singleton] at hr
            obtain ⟨s, hs, hrow⟩ := exportPhase_appended cfg st inp row happ
            rw [hr, hrow]
            exact hfin inp (by simp) s hs (inp.currentTime - cfg.startTime)
      have hlenApp : ((exportPhase cfg st inp).2).toList.length ≤ 1 := by
        cases (exportPhase cfg st inp).2 <;> simp
      have hlen1 : (exportPhase cfg st inp).1.buffer.length ≤ cfg.bufferSize := by
        rw [hb1.1]
        simp only [List.length_append]
        omega
      have hfin' : ∀ inp2 ∈ rest, ∀ s : Sample, inp2.latest = some s →
          ∀ elapsed : ℚ, ∀ kv ∈ rowOfSample s elapsed, kv.1 ∈ fieldnames :=
        fun inp2 hi => hfin inp2 (List.mem_cons_of_mem _ hi)
      by_cases hfl : cfg.bufferSize ≤ (exportPhase cfg st inp).1.buffer.length
      · have hexact : (exportPhase cfg st inp).1.buffer.length =
            cfg.bufferSize := by
          omega
        have htick : exporterTick cfg fieldnames st inp =
            ({ (exportPhase cfg st inp).1 with
                sink := (exportPhase cfg st inp).1.sink ++
                  (exportPhase cfg st inp).1.buffer,
                buffer := [] },
             { stopped := false, appendedRow := (exportPhase cfg st inp).2,
               flushedRows := some (exportPhase cfg st inp).1.buffer,
               flushError := none }) := by
          simp only [exporterTick, if_neg hstop,
            flushPhase_ok fieldnames cfg.bufferSize _ hfl hfitb1]
        obtain ⟨ihcons, ihlen, ihfit, ihnoerr, ihsizes⟩ := ih
          { (exportPhase cfg st inp).1 with
              sink := (exportPhase cfg st inp).1.sink ++
                (exportPhase cfg st inp).1.buffer,
              buffer := [] }
          (by simpa using hB) (by simp) hfin'
        rw [exporterLoop_cons_going cfg fieldnames st inp rest (by rw [htick]; rfl),
          htick]
        refine ⟨?_, ihlen, ihfit, ?_, ?_⟩
        · rw [rowsAppended_cons]
          simp only at ihcons ⊢
          rw [ihcons]
          simp only [hb1.1, hb1.2, List.append_nil, List.append_assoc]
        · intro l hl
          simp only [List.mem_cons] at hl
          rcases hl with hl | hl
          · subst hl
            rfl
          · exact ihnoerr l hl
        · intro l hl rows hr
          simp only [List.mem_cons] at hl
          rcases hl with hl | hl
          · subst hl
            simp only at hr
            obtain rfl : (exportPhase cfg st inp).1.buffer = rows :=
              Option.some.inj hr
            exact hexact
          · exact ihsizes l hl rows hr
      · have htick : exporterTick cfg fieldnames st inp =
            ((exportPhase cfg st inp).1,
             { stopped := false, appendedRow := (exportPhase cfg st inp).2,
               flushedRows := none, flushError := none }) := by
          simp only [exporterTick, if_neg hstop,
            flushPhase_lt fieldnames cfg.bufferSize _ hfl]
        obtain ⟨ihcons, ihlen, ihfit, ihnoerr, ihsizes⟩ := ih
          (exportPhase cfg st inp).1 (by omega) hfitb1 hfin'
        rw [exporterLoop_cons_going cfg fieldnames st inp rest (by rw [htick]; rfl),
          htick]
        refine ⟨?_, ihlen, ihfit, ?_, ?_⟩
        · rw [rowsAppended_cons]
          simp only at ihcons ⊢
          rw [ihcons]
          simp only [hb1.1, hb1.2, List.append_assoc]
        · intro l hl
          simp only [List.mem_cons] at hl
          rcases hl with hl | hl
          · subst hl
            rfl
          · exact ihnoerr l hl
        · intro l hl rows hr
          simp only [List.mem_cons] at hl
          rcases hl with hl | hl
          · subst hl
            simp at hr
          · exact ihsizes l hl rows hr

/-- A run none of whose logs records a flush error ended without one. -/
lemma loopFlushError_none (logs : List TickLog)
    (h : ∀ l ∈ logs, l.flushError = none) : loopFlushError logs = none := by
  unfold loopFlushError
  cases hg : logs.getLast? with
  | none => rfl
  | some l =>
    have hm : l ∈ logs := List.mem_of_getLast?_eq_some hg
    simp [h l hm]

/-- Claim C8 as stated is false: with the header frozen without supply
columns and threshold 1, the first appended row (from a supplies-carrying
sample) makes `writer.writerows` raise the `DictWriter` `ValueError` at the
flush — one row was appended to the write buffer, nothing reached the file,
the exception escaped the loop, and the final flush never ran while the
buffer still held the row: a row was lost from the write buffer without
being written out at any flush. -/
theorem c8_counterexample :
    (rowsAppended (exporterRun cfgFlush1 hdrNoPS stFresh [tickBad]).2.1).length = 1 ∧
    (exporterRun cfgFlush1 hdrNoPS stFresh [tickBad]).1.sink = [] ∧
    (exporterRun cfgFlush1 hdrNoPS stFresh [tickBad]).1.buffer.length = 1 ∧
    (exporterRun cfgFlush1 hdrNoPS stFresh [tickBad]).2.2 =
      some "ValueError: dict contains fields not in fieldnames" :=
  ⟨rfl, rfl, rfl, rfl⟩

/-- Claim C8 amended: the exporter flushes exactly when the write buffer
reaches the threshold, writing the buffered rows to the file in arrival
order; provided every row produced fits the frozen column set (its supply
ids lie in the frozen header id set), every flush writes exactly the
threshold number of rows, nothing raises, the final flush runs on loop
exit, and the file ends up holding every appended row in order — but when a
flush raises the `DictWriter` `ValueError`, the exception escapes the loop
and the final flush is skipped, so the unwritten buffered rows are lost. -/
theorem c8_amended :
    (∀ (latestHdr : Option Sample) (cfg : ExporterConfig) (st : ExporterState)
       (inputs : List ExporterInput),
       1 ≤ cfg.bufferSize → st.buffer = [] →
       (∀ inp ∈ inputs, latestFits latestHdr inp = true) →
       (exporterRun cfg (csvFieldnames latestHdr) st inputs).2.2 = none ∧
       (exporterRun cfg (csvFieldnames latestHdr) st inputs).1.sink =
         st.sink ++ rowsAppended
           (exporterRun cfg (csvFieldnames latestHdr) st inputs).2.1 ∧
       (∀ l ∈ (exporterRun cfg (csvFieldnames latestHdr) st inputs).2.1,
          ∀ rows : List Row, l.flushedRows = some rows →
            rows.length = cfg.bufferSize)) ∧
    (∀ (fieldnames : List String) (cfg : ExporterConfig) (st : ExporterState)
       (inputs : List ExporterInput) (e : String),
       loopFlushError (exporterLoop cfg fieldnames st inputs).2 = some e →
       exporterRun cfg fieldnames st inputs =
         ((exporterLoop cfg fieldnames st inputs).1,
          (exporterLoop cfg fieldnames st inputs).2, some e)) := by
  constructor
  · intro latestHdr cfg st inputs hB hbuf hfit
    have hfin : ∀ inp ∈ inputs, ∀ s : Sample, inp.latest = some s →
        ∀ elapsed : ℚ, ∀ kv ∈ rowOfSample s elapsed,
          kv.1 ∈ csvFieldnames latestHdr := by
      intro inp hinp s hs elapsed
      have hf := hfit inp hinp
      rw [latestFits, hs, List.all_eq_true] at hf
      refine rowOfSample_fits latestHdr s elapsed ?_
      intro ps hps
      have := hf ps hps
      rwa [decide_eq_true_eq] at this
    obtain ⟨hcons, hlen, hfitb, hnoerr, hsizes⟩ :=
      exporterLoop_spec cfg (csvFieldnames latestHdr) hB inputs st
        (by rw [hbuf]; simpa using hB) (by rw [hbuf]; simp) hfin
    have hle : loopFlushError
        (exporterLoop cfg (csvFieldnames latestHdr) st inputs).2 = none :=
      loopFlushError_none _ hnoerr
    have hrun : exporterRun cfg (csvFieldnames latestHdr) st inputs =
        ((finalFlush (csvFieldnames latestHdr)
            (exporterLoop cfg (csvFieldnames latestHdr) st inputs).1).1,
         (exporterLoop cfg (csvFieldnames latestHdr) st inputs).2,
         (finalFlush (csvFieldnames latestHdr)
            (exporterLoop cfg (csvFieldnames latestHdr) st inputs).1).2) := by
      simp only [exporterRun, hle]
    have hff := finalFlush_ok (csvFieldnames latestHdr)
      (exporterLoop cfg (csvFieldnames latestHdr) st inputs).1 hfitb
    rw [hrun, hff]
    refine ⟨rfl, ?_, hsizes⟩
    simp only
    rw [hcons, hbuf]
    simp
  · intro fieldnames cfg st inputs e he
    simp only [exporterRun, he]

/-- Witness for the amended C8: a three-tick run of fitting rows flushes at
threshold 2 and loses nothing, and a run whose flush raises ends with that
exception and no final flush. -/
theorem c8_amended_witness :
    ((exporterRun cfgFlush2 (csvFieldnames (some sNoPS)) stFresh ticksThree).2.2 =
       none ∧
     (exporterRun cfgFlush2 (csvFieldnames (some sNoPS)) stFresh ticksThree).1.sink =
       stFresh.sink ++ rowsAppended
         (exporterRun cfgFlush2 (csvFieldnames (some sNoPS)) stFresh
           ticksThree).2.1) ∧
    exporterRun cfgFlush1 hdrNoPS stFresh [tickBad] =
      ((exporterLoop cfgFlush1 hdrNoPS stFresh [tickBad]).1,
       (exporterLoop cfgFlush1 hdrNoPS stFresh [tickBad]).2,
       some "ValueError: dict contains fields not in fieldnames") :=
  ⟨⟨(c8_amended.1 (some sNoPS) cfgFlush2 stFresh ticksThree (by decide) rfl
      (by decide)).1,
    (c8_amended.1 (some sNoPS) cfgFlush2 stFresh ticksThree (by decide) rfl
      (by decide)).2.1⟩,
   c8_amended.2 hdrNoPS cfgFlush1 stFresh [tickBad]
     "ValueError: dict contains fields not in fieldnames" rfl⟩
